import Mathlib

/-!
# Verification of the frame-update core of *Blades of the Fallen Realm*

A shallow embedding of the game's frame-update core, translated from the
Python sources under `src/blades_of_the_fallen_realm/`:

* `engine/collision.py`  — rectangle/depth hit detection and ground clamp,
* `entities/base_entity.py` — base entity state and damage handling,
* `entities/player.py`   — combo chain and magic activation,
* `engine/input_handler.py` — directional input vector,
* `engine/camera.py`     — scrolling camera,
* `engine/animation.py`  — animation playback state machine,
* `engine/renderer.py`   — depth-sorted draw order.

Python `float` values are modelled as `ℚ` (the code performs only ring
operations and comparisons on them), Python `int` as `ℤ`, and Python's
string-keyed state machine as `String`-valued fields.  Mutating methods
become functions returning the updated record.
-/

/-! ## Settings (`settings.py`) — the constants used by the verified core -/

def SCREEN_WIDTH : ℤ := 960

def DEPTH_BAND_MIN : ℤ := 160

def DEPTH_BAND_MAX : ℤ := 260

def DEPTH_PROXIMITY : ℚ := 15

def COMBO_WINDOW_MS : ℤ := 500

def INVINCIBILITY_FRAMES : ℤ := 60

def STARTING_LIVES : ℤ := 3

/-! ## Rectangles and collision (`engine/collision.py`)

`pygame.Rect` stores integer `x`, `y`, `w`, `h`.  `check_overlap` wraps
`pygame.Rect.colliderect`, whose semantics (pygame 2, `do_rects_intersect`)
are: rectangles with a zero width or height collide with nothing, and
otherwise the normalized half-open spans must strictly overlap on both
axes (touching edges do not collide). -/

structure Rect where
  x : ℤ
  y : ℤ
  w : ℤ
  h : ℤ
deriving DecidableEq

structure HitboxData where
  rect : Rect
  active : Bool
  damage : ℤ
deriving DecidableEq

/-- `check_overlap(rect1, rect2)`: `rect1.colliderect(rect2)` with
pygame 2 semantics (see module comment above). -/
def check_overlap (rect1 rect2 : Rect) : Bool :=
  if rect1.w = 0 || rect1.h = 0 || rect2.w = 0 || rect2.h = 0 then false
  else
    decide (min rect1.x (rect1.x + rect1.w) < max rect2.x (rect2.x + rect2.w)
      ∧ min rect1.y (rect1.y + rect1.h) < max rect2.y (rect2.y + rect2.h)
      ∧ min rect2.x (rect2.x + rect2.w) < max rect1.x (rect1.x + rect1.w)
      ∧ min rect2.y (rect2.y + rect2.h) < max rect1.y (rect1.y + rect1.h))

/-- `is_in_depth_range(y1, y2, tolerance)`: `abs(y1 - y2) <= tolerance`.
The Python default argument `tolerance=DEPTH_PROXIMITY` is passed
explicitly at the call site in `check_hit`. -/
def is_in_depth_range (y1 y2 tolerance : ℚ) : Bool :=
  decide (|y1 - y2| ≤ tolerance)

/-- `check_hit(attacker_hitbox, defender_hurtbox, attacker_y, defender_y)`. -/
def check_hit (attacker_hitbox : HitboxData) (defender_hurtbox : Rect)
    (attacker_y defender_y : ℚ) : Bool :=
  if !attacker_hitbox.active then false
  else if !check_overlap attacker_hitbox.rect defender_hurtbox then false
  else is_in_depth_range attacker_y defender_y DEPTH_PROXIMITY

/-- The two normalized rectangles intersect in a region of positive area.
This is the specification-side reading of "the rectangles overlap with
positive area; rectangles that only touch at an edge do not count",
to be compared with `check_overlap` as implemented. -/
def positive_area_overlap (r1 r2 : Rect) : Prop :=
  max (min r1.x (r1.x + r1.w)) (min r2.x (r2.x + r2.w))
      < min (max r1.x (r1.x + r1.w)) (max r2.x (r2.x + r2.w))
  ∧ max (min r1.y (r1.y + r1.h)) (min r2.y (r2.y + r2.h))
      < min (max r1.y (r1.y + r1.h)) (max r2.y (r2.y + r2.h))

/-! ## Base entity (`entities/base_entity.py`)

The constructor-initialised fields that the verified operations read or
write.  The `image`/`sprite` surfaces are pure rendering handles (owned
by the excluded drawing layer) and carry no game state, so they are not
modelled. -/

structure BaseEntity where
  x : ℚ
  y : ℚ
  z : ℚ
  vel_x : ℚ
  vel_y : ℚ
  vel_z : ℚ
  hp : ℤ
  max_hp : ℤ
  magic_charges : ℤ
  state : String
  facing : String
  hitbox : HitboxData
  hurtbox : Rect
  invincibility_frames : ℤ
deriving DecidableEq

/-- `BaseEntity.__init__(x, y)`. -/
def BaseEntity.init (x y : ℚ) : BaseEntity where
  x := x
  y := y
  z := 0
  vel_x := 0
  vel_y := 0
  vel_z := 0
  hp := 100
  max_hp := 100
  magic_charges := 0
  state := "IDLE"
  facing := "right"
  hitbox := ⟨⟨0, 0, 0, 0⟩, false, 0⟩
  hurtbox := ⟨0, 0, 0, 0⟩
  invincibility_frames := 0

/-- `BaseEntity.change_state(new_state)`. -/
def BaseEntity.change_state (e : BaseEntity) (new_state : String) : BaseEntity :=
  { e with state := new_state }

/-- `BaseEntity.take_damage(amount)`. -/
def BaseEntity.take_damage (e : BaseEntity) (amount : ℤ) : BaseEntity :=
  if e.invincibility_frames > 0 then e
  else
    let e1 := { e with hp := max 0 (e.hp - amount) }
    let e2 := if e1.hp > 0 then e1.change_state "HIT" else e1
    { e2 with invincibility_frames := INVINCIBILITY_FRAMES }

/-- `resolve_ground_collision(entity, depth_band_min, depth_band_max)`
(from `engine/collision.py`); the in-place mutation of `entity.y` becomes
a returned record. -/
def resolve_ground_collision (e : BaseEntity)
    (depth_band_min depth_band_max : ℚ) : BaseEntity :=
  if e.y < depth_band_min then { e with y := depth_band_min }
  else if e.y > depth_band_max then { e with y := depth_band_max }
  else e

/-! ## Player (`entities/player.py`)

Fields added by `Player.__init__` on top of `BaseEntity`.  The reference
to the `InputHandler`, the non-owning mount reference and the captured
spawn coordinates are only read by `handle_input`/`mount`/`respawn`,
which are outside the verified operations (`execute_combo`,
`activate_magic`), so they are not modelled.  The Python attribute
`_last_attack_time` is modelled as `last_attack_time`. -/

structure Player extends BaseEntity where
  player_id : ℤ
  palette_swap : Bool
  lives : ℤ
  score : ℤ
  combo_count : ℤ
  last_attack_time : ℤ
  is_mounted : Bool
deriving DecidableEq

/-- `Player.__init__(x, y, player_id, input_handler)`. -/
def Player.init (x y : ℚ) (player_id : ℤ) : Player where
  toBaseEntity := BaseEntity.init x y
  player_id := player_id
  palette_swap := decide (player_id = 2)
  lives := STARTING_LIVES
  score := 0
  combo_count := 0
  last_attack_time := 0
  is_mounted := false

/-- `Player.change_state` is inherited from `BaseEntity`. -/
def Player.change_state (p : Player) (new_state : String) : Player :=
  { p with toBaseEntity := p.toBaseEntity.change_state new_state }

/-- The module-level `_COMBO_STATES` table of `player.py`. -/
def COMBO_STATES : List String := ["ATTACK1", "ATTACK2", "ATTACK3"]

/-- `Player.execute_combo()`.  Python reads the clock via
`pygame.time.get_ticks()`; the monotonic millisecond tick is passed in
as `current_time`.  Python's `_COMBO_STATES[state_index]` is modelled
with `List.getD`; the two agree whenever `state_index ∈ [0, 2]`, which
holds for every reachable `combo_count ≥ 0` (see `Player.execute_combo`
theorems), while Python would wrap or raise on other indices. -/
def Player.execute_combo (p : Player) (current_time : ℤ) : Player :=
  let elapsed := current_time - p.last_attack_time
  let p1 := if elapsed > COMBO_WINDOW_MS ∨ p.combo_count ≥ 3 then
      { p with combo_count := 0 }
    else p
  let p2 := { p1 with combo_count := p1.combo_count + 1,
                      last_attack_time := current_time }
  let state_index := min p2.combo_count 3 - 1
  let new_state := COMBO_STATES.getD state_index.toNat ""
  p2.change_state new_state

/-- `Player.activate_magic()`. -/
def Player.activate_magic (p : Player) : Player :=
  if p.magic_charges ≤ 0 then p
  else
    let charges := p.magic_charges
    let p1 := if charges ≥ 5 then p.change_state "MAGIC_TIER3"
      else if charges ≥ 3 then p.change_state "MAGIC_TIER2"
      else p.change_state "MAGIC_TIER1"
    { p1 with magic_charges := 0 }

/-! ## Input direction (`engine/input_handler.py`)

`InputHandler.pressed` is a dict with the seven fixed action keys set up
in `__init__`; `get_direction` reads only the four directional entries.
The dict is modelled as a record of `Bool`s. -/

structure PressedMap where
  UP : Bool
  DOWN : Bool
  LEFT : Bool
  RIGHT : Bool
  ATTACK : Bool
  JUMP : Bool
  MAGIC : Bool
deriving DecidableEq

/-- `InputHandler.get_direction()`. -/
def get_direction (pressed : PressedMap) : ℤ × ℤ :=
  let dx : ℤ := 0
  let dy : ℤ := 0
  let dx := if pressed.LEFT then dx - 1 else dx
  let dx := if pressed.RIGHT then dx + 1 else dx
  let dy := if pressed.UP then dy - 1 else dy
  let dy := if pressed.DOWN then dy + 1 else dy
  (dx, dy)

/-! ## Camera (`engine/camera.py`)

`Camera.update` takes a list of objects with an `x` attribute and only
reads that attribute, so players are modelled by their `x : ℚ`. -/

structure Camera where
  x : ℚ
  y : ℚ
  scroll_locked : Bool
  level_width : ℤ
deriving DecidableEq

/-- `Camera.__init__()`. -/
def Camera.init : Camera where
  x := 0
  y := 0
  scroll_locked := false
  level_width := 0

/-- `Camera.lock()`. -/
def Camera.lock (c : Camera) : Camera := { c with scroll_locked := true }

/-- `Camera.unlock()`. -/
def Camera.unlock (c : Camera) : Camera := { c with scroll_locked := false }

/-- `Camera.update(players, level_width)`. -/
def Camera.update (c : Camera) (players : List ℚ) (level_width : ℤ) : Camera :=
  let c1 := { c with level_width := level_width }
  if c1.scroll_locked then c1
  else if players = [] then c1
  else
    let midpoint_x := players.sum / players.length
    let raw_x := midpoint_x - (SCREEN_WIDTH : ℚ) / 2
    let max_x : ℤ := max 0 (level_width - SCREEN_WIDTH)
    { c1 with x := max 0 (min raw_x (max_x : ℚ)) }

/-- A sequence of camera operations, as quantified over by the camera
invariant: construction is `Camera.init`, then any interleaving of
`update`, `lock` and `unlock` calls. -/
inductive CamOp where
  | update (players : List ℚ) (level_width : ℤ)
  | lock
  | unlock

/-- Run one camera operation. -/
def camApply (c : Camera) : CamOp → Camera
  | CamOp.update players level_width => c.update players level_width
  | CamOp.lock => c.lock
  | CamOp.unlock => c.unlock

/-- Run a sequence of camera operations. -/
def camRun (c : Camera) (ops : List CamOp) : Camera := ops.foldl camApply c

/-- The `level_width` argument of the last `update` executed while the
camera is unlocked and with a nonempty player list — the last update
that can move the camera — starting from lock state `locked`.
`none` when no such update occurs in `ops`. -/
def lastTrackedLW (locked : Bool) : List CamOp → Option ℤ
  | [] => none
  | CamOp.lock :: rest => lastTrackedLW true rest
  | CamOp.unlock :: rest => lastTrackedLW false rest
  | CamOp.update players level_width :: rest =>
    if locked = true ∨ players = [] then lastTrackedLW locked rest
    else
      match lastTrackedLW locked rest with
      | some l => some l
      | none => some level_width

/-! ## Animation (`engine/animation.py`)

`AnimationData.callbacks` maps frame indices to side-effecting closures;
the closures are external effects that do not touch the controller's
playback cursor, so only the set of registered indices is kept (no
verified claim concerns callback firing).

The `while self.elapsed >= anim.frame_duration` loop of
`AnimationController.update` is embedded as a fuel-indexed recursion
`animAdvance`; `AnimationController.update` supplies fuel that provably
suffices to drain `elapsed` below `frame_duration` whenever
`frame_duration > 0` (lemma `lt_updateFuel_mul`).  For
`frame_duration ≤ 0` the Python loop would not terminate on a looping
animation, so no fuel is supplied; theorems about frame advancement
therefore assume `0 < frame_duration`. -/

structure AnimationData where
  frames : List Rect
  frame_duration : ℚ
  loop : Bool
  one_shot : Bool
  callbacks : List ℕ
deriving DecidableEq

structure AnimationController where
  animations : List (String × AnimationData)
  current_animation : String
  current_frame : ℕ
  elapsed : ℚ
  finished : Bool
deriving DecidableEq

/-- `AnimationController.__init__(animations)`.  The Python attribute
`_finished` is modelled as `finished`. -/
def AnimationController.init (animations : List (String × AnimationData)) :
    AnimationController where
  animations := animations
  current_animation := ""
  current_frame := 0
  elapsed := 0
  finished := false

/-- `AnimationController.play(state_name)`. -/
def AnimationController.play (c : AnimationController) (state_name : String) :
    AnimationController :=
  if state_name = c.current_animation then c
  else { c with current_animation := state_name, current_frame := 0,
                elapsed := 0, finished := false }

/-- One-to-many iterations of the frame-advance `while` loop in
`AnimationController.update`, with `len(anim.frames) - 1` as truncated
`ℕ` subtraction (it differs from Python's `-1` only for an empty frame
list, which no theorem exercises).  Reaching the end of a `one_shot` or
non-looping animation clamps to the last frame, sets `finished`, zeroes
`elapsed` and breaks out of the loop. -/
def animAdvance (anim : AnimationData) :
    ℕ → AnimationController → AnimationController
  | 0, c => c
  | fuel + 1, c =>
    if anim.frame_duration ≤ c.elapsed then
      let elapsed1 := c.elapsed - anim.frame_duration
      let next_frame := c.current_frame + 1
      if anim.frames.length ≤ next_frame then
        if anim.one_shot then
          { c with current_frame := anim.frames.length - 1, elapsed := 0,
                   finished := true }
        else if anim.loop then
          animAdvance anim fuel { c with current_frame := 0, elapsed := elapsed1 }
        else
          { c with current_frame := anim.frames.length - 1, elapsed := 0,
                   finished := true }
      else
        animAdvance anim fuel { c with current_frame := next_frame,
                                       elapsed := elapsed1 }
    else c

/-- Fuel that drains `elapsed` below a positive `frame_duration`. -/
def updateFuel (elapsed frame_duration : ℚ) : ℕ :=
  if 0 < frame_duration then (⌈elapsed / frame_duration⌉).toNat + 1 else 0

/-- `AnimationController.update(dt)`.  The Python dict lookup
`self.animations[self.current_animation]` raises `KeyError` when the key
is missing; that error path is modelled as the identity and is never
reached by the theorems (which install the animation being played). -/
def AnimationController.update (c : AnimationController) (dt : ℚ) :
    AnimationController :=
  if c.current_animation = "" then c
  else
    match c.animations.lookup c.current_animation with
    | none => c
    | some anim =>
      if c.finished then c
      else
        let c1 := { c with elapsed := c.elapsed + dt }
        animAdvance anim (updateFuel c1.elapsed anim.frame_duration) c1

/-- `AnimationController.is_finished()`. -/
def AnimationController.is_finished (c : AnimationController) : Bool :=
  c.finished

/-- A sequence of `update` calls with the given `dt` values. -/
def AnimationController.run (c : AnimationController) (dts : List ℚ) :
    AnimationController :=
  dts.foldl AnimationController.update c

/-! ## Renderer (`engine/renderer.py`)

`Renderer.draw` computes `sorted(self.entities, key=self._clamped_y)`
and dispatches each entity's `draw` in that order.  Python's `sorted`
is a stable comparison sort on the key; `pySorted` below is a stable
insertion sort on the same key, and a stable sort's output is uniquely
determined by the input order and the keys, so `pySorted` computes
exactly the list `sorted` returns.  The draw dispatch itself only blits
(`BaseEntity.draw` reads `x`, `y`, `z` and writes nothing), so the draw
order is the renderer's sole observable output. -/

/-- `Renderer._clamped_y(entity)`:
`max(DEPTH_BAND_MIN, min(entity.y, DEPTH_BAND_MAX))`. -/
def clamped_y (e : BaseEntity) : ℚ :=
  max (DEPTH_BAND_MIN : ℚ) (min e.y (DEPTH_BAND_MAX : ℚ))

/-- Insert `a` into `l` before the first element whose key is not below
`a`'s key (the insertion step of a stable insertion sort). -/
def sortKeyInsert {α : Type} (key : α → ℚ) (a : α) : List α → List α
  | [] => [a]
  | b :: l => if key a ≤ key b then a :: b :: l else b :: sortKeyInsert key a l

/-- Stable sort ascending by `key`: the observable behaviour of Python's
`sorted(·, key=key)`. -/
def pySorted {α : Type} (key : α → ℚ) : List α → List α
  | [] => []
  | a :: l => sortKeyInsert key a (pySorted key l)

structure Renderer where
  entities : List BaseEntity

/-- `Renderer.__init__()`. -/
def Renderer.init : Renderer where
  entities := []

/-- `Renderer.add_entity(entity)` (Python `list.append`). -/
def Renderer.add_entity (r : Renderer) (e : BaseEntity) : Renderer :=
  { r with entities := r.entities ++ [e] }

/-- The order in which `Renderer.draw(screen, camera_offset)` dispatches
the entities' draw calls:
`sorted_entities = sorted(self.entities, key=self._clamped_y)`. -/
def Renderer.draw_order (r : Renderer) : List BaseEntity :=
  pySorted clamped_y r.entities

/-! ## Theorems -/

/-- **C9.** For every combination of pressed inputs, `get_direction`
returns `(dx, dy)` with `dx = (RIGHT ? 1 : 0) - (LEFT ? 1 : 0)` and
`dy = (DOWN ? 1 : 0) - (UP ? 1 : 0)`; simultaneous LEFT+RIGHT gives
`dx = 0` and simultaneous UP+DOWN gives `dy = 0`. -/
theorem get_direction_eq_sign_difference (pressed : PressedMap) :
    get_direction pressed =
      ((if pressed.RIGHT then 1 else 0) - (if pressed.LEFT then 1 else 0),
       (if pressed.DOWN then 1 else 0) - (if pressed.UP then 1 else 0)) := by
  obtain ⟨u, d, l, r, a, j, m⟩ := pressed
  cases u <;> cases d <;> cases l <;> cases r <;> rfl

/-- **C7.** `activate_magic` is a no-op at `magic_charges ≤ 0`; with at
least one charge it selects `MAGIC_TIER3` for `charges ≥ 5`,
`MAGIC_TIER2` for `3 ≤ charges ≤ 4`, `MAGIC_TIER1` for
`1 ≤ charges ≤ 2`, and always zeroes the charges; in particular
`charges = 4` yields `MAGIC_TIER2` with zero charges. -/
theorem activate_magic_tiers (p : Player) :
    (p.magic_charges ≤ 0 → p.activate_magic = p)
    ∧ (5 ≤ p.magic_charges →
        p.activate_magic = { p.change_state "MAGIC_TIER3" with magic_charges := 0 })
    ∧ (3 ≤ p.magic_charges → p.magic_charges ≤ 4 →
        p.activate_magic = { p.change_state "MAGIC_TIER2" with magic_charges := 0 })
    ∧ (1 ≤ p.magic_charges → p.magic_charges ≤ 2 →
        p.activate_magic = { p.change_state "MAGIC_TIER1" with magic_charges := 0 })
    ∧ (p.magic_charges = 4 →
        p.activate_magic.state = "MAGIC_TIER2" ∧ p.activate_magic.magic_charges = 0) := by
  refine ⟨?_, ?_, ?_, ?_, ?_⟩
  · intro h
    simp only [Player.activate_magic]
    rw [if_pos h]
  · intro h5
    simp only [Player.activate_magic]
    split_ifs <;> first | rfl | omega
  · intro h3 h4
    simp only [Player.activate_magic]
    split_ifs <;> first | rfl | omega
  · intro h1 h2
    simp only [Player.activate_magic]
    split_ifs <;> first | rfl | omega
  · intro h4
    simp only [Player.activate_magic]
    split_ifs <;> first | exact ⟨rfl, rfl⟩ | omega

theorem activate_magic_tiers_witness :
    ((Player.init 0 0 1).activate_magic = Player.init 0 0 1)
    ∧ ({ Player.init 0 0 1 with magic_charges := 4 }.activate_magic.state = "MAGIC_TIER2"
        ∧ { Player.init 0 0 1 with magic_charges := 4 }.activate_magic.magic_charges = 0) :=
  ⟨(activate_magic_tiers (Player.init 0 0 1)).1 (by decide),
   (activate_magic_tiers { Player.init 0 0 1 with magic_charges := 4 }).2.2.2.2 rfl⟩

/-- **C10 (amended).** `take_damage` on a dead (`hp = 0`), non-invincible
entity with a *nonnegative* amount leaves `hp` at 0, does not change the
state (no transition to HIT), and still sets `invincibility_frames` to
the standard duration.  (For a negative amount the code heals the entity
and does transition to HIT — see the counterexample.) -/
theorem take_damage_dead_entity (e : BaseEntity) (amount : ℤ)
    (hdead : e.hp = 0) (hinv : e.invincibility_frames = 0) (hamt : 0 ≤ amount) :
    (e.take_damage amount).hp = 0
    ∧ (e.take_damage amount).state = e.state
    ∧ (e.take_damage amount).invincibility_frames = INVINCIBILITY_FRAMES := by
  simp only [BaseEntity.take_damage]
  rw [if_neg (by omega)]
  have hmax : max 0 (e.hp - amount) = 0 := by omega
  simp only [hmax]
  rw [if_neg (by omega)]
  refine ⟨?_, ?_, ?_⟩ <;> first | rfl | trivial

theorem take_damage_dead_entity_witness :
    ({ BaseEntity.init 0 0 with hp := 0 }.take_damage 25).hp = 0
    ∧ ({ BaseEntity.init 0 0 with hp := 0 }.take_damage 25).state
        = { BaseEntity.init 0 0 with hp := 0 }.state
    ∧ ({ BaseEntity.init 0 0 with hp := 0 }.take_damage 25).invincibility_frames
        = INVINCIBILITY_FRAMES :=
  take_damage_dead_entity { BaseEntity.init 0 0 with hp := 0 } 25 rfl rfl (by decide)

/-- **C10 counterexample.** The claim quantifies over *any* amount: with
`amount = -50` a dead, non-invincible entity ends with `hp = 50 ≠ 0` and
its state changed to `"HIT"`, contradicting "leaves hp at 0" and "no
transition to HIT occurs". -/
theorem take_damage_dead_counterexample :
    ({ BaseEntity.init 0 0 with hp := 0 }.take_damage (-50)).hp = 50
    ∧ ({ BaseEntity.init 0 0 with hp := 0 }.take_damage (-50)).state = "HIT"
    ∧ { BaseEntity.init 0 0 with hp := 0 }.state ≠ "HIT" := by
  refine ⟨?_, ?_, by decide⟩ <;> rfl

/-- **C8 (amended).** `resolve_ground_collision` is idempotent whenever
the band is well-formed (`depth_band_min ≤ depth_band_max`).  (For an
inverted band the two clamp branches alternate — see the
counterexample.) -/
theorem resolve_ground_idempotent (e : BaseEntity) (bandMin bandMax : ℚ)
    (hband : bandMin ≤ bandMax) :
    resolve_ground_collision (resolve_ground_collision e bandMin bandMax) bandMin bandMax
      = resolve_ground_collision e bandMin bandMax := by
  simp only [resolve_ground_collision]
  split_ifs <;> first | rfl | (exfalso; simp_all; linarith)

theorem resolve_ground_idempotent_witness :
    resolve_ground_collision
        (resolve_ground_collision (BaseEntity.init 0 300) 160 260) 160 260
      = resolve_ground_collision (BaseEntity.init 0 300) 160 260 :=
  resolve_ground_idempotent (BaseEntity.init 0 300) 160 260 (by norm_num)

/-- **C8 counterexample.** The claim quantifies over *every* bound pair:
with the inverted band `(bandMin, bandMax) = (10, 5)` and `y = 20`, one
application yields `y = 5` but a second application yields `y = 10`, so
applying twice does not equal applying once. -/
theorem resolve_ground_counterexample :
    (resolve_ground_collision (BaseEntity.init 0 20) 10 5).y = 5
    ∧ (resolve_ground_collision
        (resolve_ground_collision (BaseEntity.init 0 20) 10 5) 10 5).y = 10 := by
  constructor <;>
    · simp only [resolve_ground_collision]
      norm_num [BaseEntity.init]

/-- `check_overlap` (pygame `colliderect`) holds exactly when the two
rectangles overlap in a region of positive area. -/
theorem check_overlap_iff_positive_area (r1 r2 : Rect) :
    check_overlap r1 r2 = true ↔ positive_area_overlap r1 r2 := by
  simp only [check_overlap, positive_area_overlap]
  split_ifs with h
  · simp only [Bool.or_eq_true, decide_eq_true_eq] at h
    constructor
    · intro hfalse
      exact absurd hfalse (by simp)
    · rintro ⟨hx, hy⟩
      obtain ((h | h) | h) | h := h <;> omega
  · simp only [Bool.or_eq_true, decide_eq_true_eq, not_or] at h
    simp only [decide_eq_true_eq]
    constructor
    · rintro ⟨h1, h2, h3, h4⟩
      omega
    · rintro ⟨hx, hy⟩
      omega

/-- **C4.** `check_hit` returns true iff the hitbox is active, the two
rectangles overlap with positive area (edge-touching does not count —
that is `positive_area_overlap`), and the absolute depth difference is
at most the tolerance 15 (inclusive: `y1 = 200, y2 = 215` hits,
`y2 = 216` does not); an inactive hitbox yields false whatever the
geometry. -/
theorem check_hit_characterization :
    (∀ (hb : HitboxData) (hurt : Rect) (y1 y2 : ℚ),
      check_hit hb hurt y1 y2 = true ↔
        hb.active = true ∧ positive_area_overlap hb.rect hurt
          ∧ |y1 - y2| ≤ DEPTH_PROXIMITY)
    ∧ (∀ (r : Rect) (dmg : ℤ) (hurt : Rect) (y1 y2 : ℚ),
        check_hit ⟨r, false, dmg⟩ hurt y1 y2 = false)
    ∧ check_hit ⟨⟨0, 0, 50, 50⟩, true, 10⟩ ⟨25, 25, 50, 50⟩ 200 215 = true
    ∧ check_hit ⟨⟨0, 0, 50, 50⟩, true, 10⟩ ⟨25, 25, 50, 50⟩ 200 216 = false := by
  have hmain : ∀ (hb : HitboxData) (hurt : Rect) (y1 y2 : ℚ),
      check_hit hb hurt y1 y2 = true ↔
        hb.active = true ∧ positive_area_overlap hb.rect hurt
          ∧ |y1 - y2| ≤ DEPTH_PROXIMITY := by
    intro hb hurt y1 y2
    simp only [check_hit, is_in_depth_range]
    cases hact : hb.active
    · simp
    · simp only [Bool.not_true, Bool.false_eq_true, if_false]
      cases hov : check_overlap hb.rect hurt
      · simp only [Bool.not_false, if_true]
        have := (check_overlap_iff_positive_area hb.rect hurt)
        rw [hov] at this
        simp [← this]
      · simp only [Bool.not_true, Bool.false_eq_true, if_false,
          decide_eq_true_eq]
        rw [← check_overlap_iff_positive_area, hov]
        simp
  refine ⟨hmain, ?_, ?_, ?_⟩
  · intro r dmg hurt y1 y2
    rfl
  · rw [hmain]
    refine ⟨rfl, ⟨by norm_num, by norm_num⟩, by norm_num [DEPTH_PROXIMITY]⟩
  · have h := hmain ⟨⟨0, 0, 50, 50⟩, true, 10⟩ ⟨25, 25, 50, 50⟩ 200 216
    rcases hc : check_hit ⟨⟨0, 0, 50, 50⟩, true, 10⟩ ⟨25, 25, 50, 50⟩ 200 216
    · rfl
    · rw [hc] at h
      have := h.mp rfl
      exfalso
      have habs := this.2.2
      norm_num [DEPTH_PROXIMITY] at habs

/-- The combo step as the specification describes it: reset
`combo_count` to 0 when the elapsed time exceeds the window or
`combo_count ≥ 3`, then increment, record the call time, and take the
chain entry at index `min(combo_count, 3) - 1`.  Written from the
claim's words, to be compared with `Player.execute_combo`. -/
def execute_combo_spec (p : Player) (now : ℤ) : Player :=
  let reset := now - p.last_attack_time > COMBO_WINDOW_MS ∨ p.combo_count ≥ 3
  let c := (if reset then 0 else p.combo_count) + 1
  { p with combo_count := c,
           last_attack_time := now,
           toBaseEntity := { p.toBaseEntity with
             state := COMBO_STATES.getD (min c 3 - 1).toNat "" } }

/-- A call made with `combo_count ≥ 3` resets the chain to 1/ATTACK1. -/
theorem execute_combo_reset (p : Player) (now : ℤ) (h3 : p.combo_count ≥ 3) :
    (p.execute_combo now).combo_count = 1
    ∧ (p.execute_combo now).state = "ATTACK1" := by
  simp only [Player.execute_combo]
  rw [if_pos (Or.inr h3)]
  exact ⟨rfl, rfl⟩

/-- **C5.** From a fresh player (`last_attack_time = 0`), `execute_combo`
at `t = 0, 100, 200` (window 500 ms) yields `combo_count` 1, 2, 3 and
states ATTACK1, ATTACK2, ATTACK3; any fourth call within the window
(`combo_count ≥ 3` at that point) resets the chain to 1/ATTACK1.  In
general each call behaves as `execute_combo_spec` (for the reachable
`combo_count ≥ 0`, where the Lean model of Python list indexing is
faithful). -/
theorem execute_combo_chain :
    (let p1 := (Player.init 0 0 1).execute_combo 0
     let p2 := p1.execute_combo 100
     let p3 := p2.execute_combo 200
     p1.combo_count = 1 ∧ p1.state = "ATTACK1"
     ∧ p2.combo_count = 2 ∧ p2.state = "ATTACK2"
     ∧ p3.combo_count = 3 ∧ p3.state = "ATTACK3"
     ∧ ∀ t4 : ℤ, t4 - 200 ≤ COMBO_WINDOW_MS →
         (p3.execute_combo t4).combo_count = 1
         ∧ (p3.execute_combo t4).state = "ATTACK1")
    ∧ ∀ (p : Player) (now : ℤ), 0 ≤ p.combo_count →
        p.execute_combo now = execute_combo_spec p now := by
  constructor
  · refine ⟨by decide, by decide, by decide, by decide, by decide, by decide, ?_⟩
    intro t4 ht4
    exact execute_combo_reset _ t4 (by decide)
  · intro p now hcount
    simp only [Player.execute_combo, execute_combo_spec]
    split_ifs <;> rfl

theorem execute_combo_chain_witness :
    (((((Player.init 0 0 1).execute_combo 0).execute_combo 100).execute_combo
        200).execute_combo 300).combo_count = 1
    ∧ (((((Player.init 0 0 1).execute_combo 0).execute_combo 100).execute_combo
        200).execute_combo 300).state = "ATTACK1"
    ∧ (Player.init 0 0 1).execute_combo 42
        = execute_combo_spec (Player.init 0 0 1) 42 := by
  have h := execute_combo_chain
  have h4 := h.1.2.2.2.2.2.2 300 (by decide)
  exact ⟨h4.1, h4.2, h.2 (Player.init 0 0 1) 42 (by decide)⟩

theorem sortKeyInsert_perm {α : Type} (key : α → ℚ) (a : α) (l : List α) :
    List.Perm (sortKeyInsert key a l) (a :: l) := by
  induction l with
  | nil => exact List.Perm.refl _
  | cons b t ih =>
    simp only [sortKeyInsert]
    split_ifs
    · exact List.Perm.refl _
    · exact (List.Perm.cons b ih).trans (List.Perm.swap a b t)

theorem pySorted_perm {α : Type} (key : α → ℚ) (l : List α) :
    List.Perm (pySorted key l) l := by
  induction l with
  | nil => exact List.Perm.refl _
  | cons a t ih =>
    exact (sortKeyInsert_perm key a (pySorted key t)).trans (List.Perm.cons a ih)

theorem pairwise_sortKeyInsert {α : Type} (key : α → ℚ) (a : α) (l : List α)
    (hl : List.Pairwise (fun x y => key x ≤ key y) l) :
    List.Pairwise (fun x y => key x ≤ key y) (sortKeyInsert key a l) := by
  induction l with
  | nil => simp [sortKeyInsert]
  | cons b t ih =>
    simp only [sortKeyInsert]
    rcases List.pairwise_cons.mp hl with ⟨hbt, ht⟩
    split_ifs with hab
    · refine List.pairwise_cons.mpr ⟨?_, hl⟩
      intro x hx
      rcases List.mem_cons.mp hx with hx | hx
      · exact hx ▸ hab
      · exact le_trans hab (hbt x hx)
    · refine List.pairwise_cons.mpr ⟨?_, ih ht⟩
      intro x hx
      have hx' := (sortKeyInsert_perm key a t).mem_iff.mp hx
      rcases List.mem_cons.mp hx' with hx' | hx'
      · exact hx' ▸ le_of_not_le hab
      · exact hbt x hx'

theorem pySorted_pairwise {α : Type} (key : α → ℚ) (l : List α) :
    List.Pairwise (fun x y => key x ≤ key y) (pySorted key l) := by
  induction l with
  | nil => simp [pySorted]
  | cons a t ih => exact pairwise_sortKeyInsert key a (pySorted key t) ih

theorem filter_sortKeyInsert_eq {α : Type} (key : α → ℚ) (a : α) (l : List α)
    (q : ℚ) (hk : key a = q) :
    (sortKeyInsert key a l).filter (fun e => decide (key e = q))
      = a :: l.filter (fun e => decide (key e = q)) := by
  induction l with
  | nil => simp [sortKeyInsert, hk]
  | cons b t ih =>
    simp only [sortKeyInsert]
    split_ifs with hab
    · simp [List.filter_cons, hk]
    · have hbq : ¬ (key b = q) := by
        intro hbq
        exact hab (le_of_eq (hk.trans hbq.symm))
      simp [List.filter_cons, hbq, ih]

theorem filter_sortKeyInsert_ne {α : Type} (key : α → ℚ) (a : α) (l : List α)
    (q : ℚ) (hk : ¬ key a = q) :
    (sortKeyInsert key a l).filter (fun e => decide (key e = q))
      = l.filter (fun e => decide (key e = q)) := by
  induction l with
  | nil => simp [sortKeyInsert, hk]
  | cons b t ih =>
    simp only [sortKeyInsert]
    split_ifs with hab
    · simp [List.filter_cons, hk]
    · simp [List.filter_cons, ih]

theorem pySorted_filter {α : Type} (key : α → ℚ) (l : List α) (q : ℚ) :
    (pySorted key l).filter (fun e => decide (key e = q))
      = l.filter (fun e => decide (key e = q)) := by
  induction l with
  | nil => rfl
  | cons a t ih =>
    simp only [pySorted]
    by_cases hk : key a = q
    · rw [filter_sortKeyInsert_eq key a (pySorted key t) q hk, ih,
        List.filter_cons, if_pos (by simpa using hk)]
    · rw [filter_sortKeyInsert_ne key a (pySorted key t) q hk, ih,
        List.filter_cons, if_neg (by simpa using hk)]

/-- **C6.** `Renderer.draw` dispatches draw calls in an order that is a
permutation of the registered entity list (the entities themselves,
unmodified — in particular every `y` value is untouched), is sorted
ascending by the clamped depth key `clamped_y`, and is stable: for each
key value, the entities carrying it appear in their insertion order
(the filtered subsequences coincide). -/
theorem renderer_draw_order_spec (r : Renderer) :
    List.Perm r.draw_order r.entities
    ∧ List.Pairwise (fun e1 e2 => clamped_y e1 ≤ clamped_y e2) r.draw_order
    ∧ ∀ q : ℚ, r.draw_order.filter (fun e => decide (clamped_y e = q))
        = r.entities.filter (fun e => decide (clamped_y e = q)) :=
  ⟨pySorted_perm clamped_y r.entities,
   pySorted_pairwise clamped_y r.entities,
   fun q => pySorted_filter clamped_y r.entities q⟩


/-- After an `update` executed while unlocked with a nonempty player
list, the camera `x` is clamped into
`[0, max 0 (level_width - SCREEN_WIDTH)]`. -/
theorem camera_update_clamped (c : Camera) (ps : List ℚ) (lw : ℤ)
    (hlock : c.scroll_locked = false) (hps : ¬ ps = []) :
    0 ≤ (c.update ps lw).x
    ∧ (c.update ps lw).x ≤ ((max 0 (lw - SCREEN_WIDTH) : ℤ) : ℚ) := by
  simp only [Camera.update, hlock, Bool.false_eq_true, if_false, if_neg hps]
  constructor
  · exact le_max_left 0 _
  · refine max_le ?_ (min_le_right _ _)
    exact_mod_cast le_max_left (0 : ℤ) (lw - SCREEN_WIDTH)

/-- An `update` while locked or with no players only stores
`level_width`. -/
theorem camera_update_frozen (c : Camera) (ps : List ℚ) (lw : ℤ)
    (hguard : c.scroll_locked = true ∨ ps = []) :
    c.update ps lw = { c with level_width := lw } := by
  simp only [Camera.update]
  rcases hguard with hlock | hps
  · rw [if_pos (by simp [hlock])]
  · by_cases hlock : c.scroll_locked = true
    · rw [if_pos (by simp [hlock])]
    · rw [if_neg (by simp [Bool.not_eq_true] at hlock; simp [hlock]), if_pos hps]

/-- Bookkeeping lemma for the camera invariant: after any operation
sequence, if some `update` could move the camera then `x` is within the
bounds given by the `level_width` of the last such update; otherwise `x`
still has its starting value. -/
theorem camRun_tracked (ops : List CamOp) : ∀ c : Camera,
    (match lastTrackedLW c.scroll_locked ops with
     | some lw => 0 ≤ (camRun c ops).x
         ∧ (camRun c ops).x ≤ ((max 0 (lw - SCREEN_WIDTH) : ℤ) : ℚ)
     | none => (camRun c ops).x = c.x) := by
  induction ops with
  | nil =>
    intro c
    simp [lastTrackedLW, camRun]
  | cons op rest ih =>
    intro c
    cases op with
    | lock =>
      have ih1 := ih c.lock
      simp only [Camera.lock] at ih1
      simpa only [camRun, List.foldl_cons, camApply, lastTrackedLW, Camera.lock]
        using ih1
    | unlock =>
      have ih1 := ih c.unlock
      simp only [Camera.unlock] at ih1
      simpa only [camRun, List.foldl_cons, camApply, lastTrackedLW, Camera.unlock]
        using ih1
    | update ps lw =>
      by_cases hguard : c.scroll_locked = true ∨ ps = []
      · have hsame := camera_update_frozen c ps lw hguard
        have ih1 := ih { c with level_width := lw }
        simp only at ih1
        simp only [camRun, List.foldl_cons, camApply, lastTrackedLW, hsame,
          if_pos hguard]
        exact ih1
      · push_neg at hguard
        obtain ⟨hlock, hps⟩ := hguard
        have hlock' : c.scroll_locked = false := by
          simpa [Bool.not_eq_true] using hlock
        have hclamp := camera_update_clamped c ps lw hlock' hps
        have hlock2 : (c.update ps lw).scroll_locked = false := by
          simp only [Camera.update, hlock', Bool.false_eq_true, if_false,
            if_neg hps]
        have ih1 := ih (c.update ps lw)
        rw [hlock2] at ih1
        simp only [camRun, List.foldl_cons, camApply, lastTrackedLW]
        rw [hlock', if_neg (by simp [hps])]
        cases htr : lastTrackedLW false rest with
        | some l =>
          rw [htr] at ih1
          exact ih1
        | none =>
          rw [htr] at ih1
          simp only [camRun] at ih1
          simp only []
          rw [ih1]
          exact hclamp

/-- **C1 (amended).** After any sequence of camera operations from
construction, `x` lies in `[0, max 0 (lw - SCREEN_WIDTH)]` where `lw` is
the `level_width` passed to the most recent `update` executed while
unlocked and with a nonempty player list (`x` is still the initial `0`
when no such update has occurred); an `update` made while scroll-locked
or with an empty player list leaves `x` unchanged (even though it stores
the new `level_width`, which is what breaks the claim as stated). -/
theorem camera_x_tracked_bound :
    (∀ ops : List CamOp,
      match lastTrackedLW false ops with
      | some lw => 0 ≤ (camRun Camera.init ops).x
          ∧ (camRun Camera.init ops).x ≤ ((max 0 (lw - SCREEN_WIDTH) : ℤ) : ℚ)
      | none => (camRun Camera.init ops).x = 0)
    ∧ ∀ (c : Camera) (ps : List ℚ) (lw : ℤ),
        c.scroll_locked = true ∨ ps = [] → (c.update ps lw).x = c.x := by
  constructor
  · intro ops
    have h := camRun_tracked ops Camera.init
    simpa only [Camera.init] using h
  · intro c ps lw hguard
    rw [camera_update_frozen c ps lw hguard]

theorem camera_x_tracked_bound_witness :
    (0 ≤ (camRun Camera.init [CamOp.update [600] 2000]).x
      ∧ (camRun Camera.init [CamOp.update [600] 2000]).x
          ≤ ((max 0 (2000 - SCREEN_WIDTH) : ℤ) : ℚ))
    ∧ ((Camera.init.lock).update [3] 500).x = (Camera.init.lock).x :=
  ⟨camera_x_tracked_bound.1 [CamOp.update [600] 2000],
   camera_x_tracked_bound.2 Camera.init.lock [3] 500 (Or.inl rfl)⟩

/-- **C1 counterexample.** The claim as stated fails: after
`update([x=5000], level_width=2000)` the camera sits at `x = 1040`; a
following `update([], level_width=960)` (empty player list) keeps
`x = 1040` but stores `level_width = 960`, whose bound
`max(0, 960 - 960) = 0` no longer contains `x`. -/
theorem camera_x_claim_counterexample :
    (camRun Camera.init [CamOp.update [5000] 2000, CamOp.update [] 960]).level_width
      = 960
    ∧ (camRun Camera.init [CamOp.update [5000] 2000, CamOp.update [] 960]).x = 1040
    ∧ ¬ ((camRun Camera.init
          [CamOp.update [5000] 2000, CamOp.update [] 960]).x
        ≤ ((max 0 ((camRun Camera.init
            [CamOp.update [5000] 2000, CamOp.update [] 960]).level_width
              - SCREEN_WIDTH) : ℤ) : ℚ)) := by
  have hx : (camRun Camera.init
      [CamOp.update [5000] 2000, CamOp.update [] 960]).x = 1040 := by
    simp only [camRun, List.foldl_cons, List.foldl_nil, camApply, Camera.update,
      Camera.init, SCREEN_WIDTH]
    norm_num
  have hlw : (camRun Camera.init
      [CamOp.update [5000] 2000, CamOp.update [] 960]).level_width = 960 := by
    simp only [camRun, List.foldl_cons, List.foldl_nil, camApply, Camera.update,
      Camera.init, SCREEN_WIDTH]
    norm_num
  refine ⟨hlw, hx, ?_⟩
  rw [hx, hlw]
  norm_num [SCREEN_WIDTH]

/-- The frame-advance loop never touches the animation table or the
active animation name. -/
theorem animAdvance_const (anim : AnimationData) :
    ∀ (fuel : ℕ) (c : AnimationController),
      (animAdvance anim fuel c).animations = c.animations
      ∧ (animAdvance anim fuel c).current_animation = c.current_animation := by
  intro fuel
  induction fuel with
  | zero => intro c; exact ⟨rfl, rfl⟩
  | succ n ih =>
    intro c
    simp only [animAdvance]
    split_ifs <;> first | exact ⟨rfl, rfl⟩ | exact ih _

/-- For a looping, non-one-shot animation the frame-advance loop never
sets `finished` (the two finishing branches are unreachable). -/
theorem animAdvance_loop_not_finished (anim : AnimationData)
    (hl : anim.loop = true) (hos : anim.one_shot = false) :
    ∀ (fuel : ℕ) (c : AnimationController), c.finished = false →
      (animAdvance anim fuel c).finished = false := by
  intro fuel
  induction fuel with
  | zero => intro c hc; exact hc
  | succ n ih =>
    intro c hc
    simp only [animAdvance, hos, hl, Bool.false_eq_true, if_false, if_true]
    split_ifs <;> first | exact hc | exact ih _ hc

/-- One `update` call on a playing looping animation keeps the
controller on that animation, unfinished. -/
theorem update_loop_invariant (name : String) (anim : AnimationData)
    (hname : ¬ name = "") (hl : anim.loop = true) (hos : anim.one_shot = false) :
    ∀ (c : AnimationController) (dt : ℚ),
      c.animations = [(name, anim)] → c.current_animation = name →
      c.finished = false →
      (c.update dt).animations = [(name, anim)]
      ∧ (c.update dt).current_animation = name
      ∧ (c.update dt).finished = false := by
  intro c dt hanims hcur hfin
  simp only [AnimationController.update, hcur, hanims, if_neg hname,
    List.lookup, beq_self_eq_true, hfin, Bool.false_eq_true, if_false]
  refine ⟨?_, ?_, ?_⟩
  · exact (animAdvance_const anim _ _).1
  · exact (animAdvance_const anim _ _).2
  · exact animAdvance_loop_not_finished anim hl hos _ _ rfl

/-- Any sequence of `update` calls on a playing looping animation keeps
the controller on that animation, unfinished. -/
theorem loop_never_finished_run (name : String) (anim : AnimationData)
    (hname : ¬ name = "") (hl : anim.loop = true) (hos : anim.one_shot = false) :
    ∀ (dts : List ℚ) (c : AnimationController),
      c.animations = [(name, anim)] → c.current_animation = name →
      c.finished = false →
      (c.run dts).animations = [(name, anim)]
      ∧ (c.run dts).current_animation = name
      ∧ (c.run dts).finished = false := by
  intro dts
  induction dts with
  | nil => intro c h1 h2 h3; exact ⟨h1, h2, h3⟩
  | cons dt rest ih =>
    intro c h1 h2 h3
    obtain ⟨g1, g2, g3⟩ := update_loop_invariant name anim hname hl hos c dt h1 h2 h3
    simpa only [AnimationController.run, List.foldl_cons] using ih (c.update dt) g1 g2 g3

/-- **C3 (amended).** For every animation with `loop = true` *and*
`one_shot = false`, after `play` any sequence of `update` calls with any
`dt` values leaves `is_finished()` false.  (With `one_shot = true` the
one-shot branch takes priority over looping and the animation does
finish — see the counterexample.) -/
theorem loop_never_finished (name : String) (anim : AnimationData) (dts : List ℚ)
    (hname : ¬ name = "") (hl : anim.loop = true) (hos : anim.one_shot = false) :
    ((((AnimationController.init [(name, anim)]).play name).run dts).is_finished) = false := by
  have hplay : (AnimationController.init [(name, anim)]).play name
      = { animations := [(name, anim)], current_animation := name,
          current_frame := 0, elapsed := 0, finished := false } := by
    simp only [AnimationController.play, AnimationController.init]
    rw [if_neg hname]
  rw [hplay]
  exact (loop_never_finished_run name anim hname hl hos dts _ rfl rfl rfl).2.2

/-- **C3 counterexample.** The claim says "regardless of its one_shot
flag", but `update` checks `one_shot` before `loop`: a 2-frame animation
with `loop = true` and `one_shot = true` is finished after one
`update(200)` with `frame_duration = 100`. -/
theorem loop_one_shot_finished_counterexample :
    (AnimationData.mk [⟨0, 0, 32, 32⟩, ⟨32, 0, 32, 32⟩] 100 true true []).loop = true
    ∧ ((((AnimationController.init
        [("DIE", AnimationData.mk [⟨0, 0, 32, 32⟩, ⟨32, 0, 32, 32⟩] 100 true true [])]).play
        "DIE").update 200).is_finished) = true := by
  refine ⟨rfl, ?_⟩
  have hplay : (AnimationController.init
      [("DIE", AnimationData.mk [⟨0, 0, 32, 32⟩, ⟨32, 0, 32, 32⟩] 100 true true [])]).play "DIE"
      = { animations := [("DIE", AnimationData.mk [⟨0, 0, 32, 32⟩, ⟨32, 0, 32, 32⟩] 100 true true [])],
          current_animation := "DIE", current_frame := 0, elapsed := 0,
          finished := false } := by
    simp only [AnimationController.play, AnimationController.init]
    rw [if_neg (by decide)]
  rw [hplay]
  have hfuel : updateFuel ((0 : ℚ) + 200) 100 = 3 := by
    norm_num [updateFuel]
    rfl
  simp only [AnimationController.update, List.lookup, beq_self_eq_true,
    Bool.false_eq_true, if_false, hfuel]
  norm_num [animAdvance, AnimationController.is_finished]
  rw [if_neg (by decide)]

/-- The fuel supplied by `AnimationController.update` strictly
dominates the number of whole `frame_duration` steps in `elapsed`. -/
theorem lt_updateFuel_mul (e d : ℚ) (hd : 0 < d) :
    e < (updateFuel e d : ℚ) * d := by
  rw [updateFuel, if_pos hd]
  have h1 : e / d ≤ (⌈e / d⌉ : ℚ) := Int.le_ceil _
  have h2 : ((⌈e / d⌉ : ℤ) : ℚ) ≤ ((⌈e / d⌉.toNat : ℕ) : ℚ) := by
    exact_mod_cast Int.self_le_toNat _
  have h3 : e ≤ (⌈e / d⌉.toNat : ℚ) * d := by
    have h4 : e / d * d ≤ (⌈e / d⌉.toNat : ℚ) * d :=
      mul_le_mul_of_nonneg_right (le_trans h1 h2) (le_of_lt hd)
    rwa [div_mul_cancel₀ e (ne_of_gt hd)] at h4
  push_cast
  nlinarith

/-- Master lemma for one-shot playback: the frame-advance loop is
monotone in the frame cursor and maintains the cumulative-time
bookkeeping `elapsed = E - current_frame * frame_duration`; when it
exits unfinished the residual `elapsed` is below one frame duration, and
when it finishes the cursor is parked on the last frame with `elapsed`
zeroed. -/
theorem animAdvance_oneshot (anim : AnimationData)
    (hos : anim.one_shot = true) (hd : 0 < anim.frame_duration) :
    ∀ (fuel : ℕ) (c : AnimationController) (E : ℚ),
      c.finished = false →
      c.current_frame + 1 ≤ anim.frames.length →
      c.elapsed = E - c.current_frame * anim.frame_duration →
      c.elapsed < fuel * anim.frame_duration →
      (c.current_frame ≤ (animAdvance anim fuel c).current_frame)
      ∧ ((animAdvance anim fuel c).finished = false →
          (animAdvance anim fuel c).current_frame + 1 ≤ anim.frames.length
          ∧ (animAdvance anim fuel c).elapsed
              = E - (animAdvance anim fuel c).current_frame * anim.frame_duration
          ∧ (animAdvance anim fuel c).elapsed < anim.frame_duration)
      ∧ ((animAdvance anim fuel c).finished = true →
          (animAdvance anim fuel c).current_frame = anim.frames.length - 1
          ∧ (animAdvance anim fuel c).elapsed = 0) := by
  intro fuel
  induction fuel with
  | zero =>
    intro c E hfin hframe helap hfuel
    simp only [animAdvance]
    refine ⟨le_refl _, ?_, ?_⟩
    · intro _
      refine ⟨hframe, helap, ?_⟩
      have : c.elapsed < 0 := by simpa using hfuel
      linarith
    · intro habs
      rw [hfin] at habs
      exact absurd habs (by simp)
  | succ n ih =>
    intro c E hfin hframe helap hfuel
    simp only [animAdvance, hos, if_true]
    split_ifs with h1 h2
    · -- elapsed ≥ d and the next frame runs off the end: one-shot finish
      have hfr : c.current_frame = anim.frames.length - 1 := by omega
      refine ⟨?_, ?_, ?_⟩
      · simp [hfr]
      · intro habs
        exact absurd habs (by simp)
      · intro _
        exact ⟨rfl, rfl⟩
    · -- elapsed ≥ d, normal advance: recurse
      have hstep := ih { c with current_frame := c.current_frame + 1,
                                elapsed := c.elapsed - anim.frame_duration } E
        hfin
        (show c.current_frame + 1 + 1 ≤ anim.frames.length by omega)
        (show c.elapsed - anim.frame_duration
            = E - ((c.current_frame + 1 : ℕ) : ℚ) * anim.frame_duration by
          rw [helap]; push_cast; ring)
        (show c.elapsed - anim.frame_duration < (n : ℚ) * anim.frame_duration by
          push_cast at hfuel; linarith)
      exact ⟨le_trans (Nat.le_succ _) hstep.1, hstep.2.1, hstep.2.2⟩
    · -- elapsed < d: loop exits
      refine ⟨le_refl _, ?_, ?_⟩
      · intro _
        exact ⟨hframe, helap, lt_of_not_le h1⟩
      · intro habs
        rw [hfin] at habs
        exact absurd habs (by simp)

/-- Invariant driving the one-shot playback argument: `T` is the
cumulative `dt` received since `play`. -/
def oneShotInv (name : String) (anim : AnimationData) (T : ℚ)
    (c : AnimationController) : Prop :=
  c.animations = [(name, anim)]
  ∧ c.current_animation = name
  ∧ (c.finished = false →
      c.current_frame + 1 ≤ anim.frames.length
      ∧ c.elapsed = T - c.current_frame * anim.frame_duration
      ∧ c.elapsed < anim.frame_duration)
  ∧ (c.finished = true →
      c.current_frame = anim.frames.length - 1 ∧ c.elapsed = 0)

/-- One `update` call preserves `oneShotInv`, shifting the cumulative
time by `dt`, and never moves the frame cursor backwards. -/
theorem oneShotInv_update (name : String) (anim : AnimationData)
    (hname : ¬ name = "") (hos : anim.one_shot = true)
    (hd : 0 < anim.frame_duration) (c : AnimationController) (T dt : ℚ)
    (hinv : oneShotInv name anim T c) :
    oneShotInv name anim (T + dt) (c.update dt)
    ∧ c.current_frame ≤ (c.update dt).current_frame := by
  obtain ⟨ha, hcur, hnf, hf⟩ := hinv
  cases hfin : c.finished with
  | true =>
    have hupd : c.update dt = c := by
      simp only [AnimationController.update, hcur, if_neg hname, ha,
        List.lookup, beq_self_eq_true, hfin, if_true]
    rw [hupd]
    refine ⟨⟨ha, hcur, ?_, hf⟩, le_refl _⟩
    intro h
    rw [hfin] at h
    exact absurd h (by simp)
  | false =>
    obtain ⟨hframe, helap, _⟩ := hnf hfin
    have hupd : c.update dt
        = animAdvance anim
            (updateFuel (c.elapsed + dt) anim.frame_duration)
            { c with elapsed := c.elapsed + dt } := by
      simp only [AnimationController.update, hcur, if_neg hname, ha,
        List.lookup, beq_self_eq_true, hfin, Bool.false_eq_true, if_false]
    have hstep := animAdvance_oneshot anim hos hd
      (updateFuel (c.elapsed + dt) anim.frame_duration)
      { c with elapsed := c.elapsed + dt } (T + dt)
      hfin hframe
      (show c.elapsed + dt = (T + dt) - c.current_frame * anim.frame_duration by
        rw [helap]; ring)
      (lt_updateFuel_mul (c.elapsed + dt) anim.frame_duration hd)
    rw [hupd]
    refine ⟨⟨?_, ?_, hstep.2.1, hstep.2.2⟩, hstep.1⟩
    · exact (animAdvance_const anim _ _).1.trans ha
    · exact (animAdvance_const anim _ _).2.trans hcur

/-- A sequence of `update` calls preserves `oneShotInv`, shifting the
cumulative time by the total of the `dt`s, and never moves the frame
cursor backwards. -/
theorem oneShotInv_run (name : String) (anim : AnimationData)
    (hname : ¬ name = "") (hos : anim.one_shot = true)
    (hd : 0 < anim.frame_duration) :
    ∀ (dts : List ℚ) (c : AnimationController) (T : ℚ),
      oneShotInv name anim T c →
      oneShotInv name anim (T + dts.sum) (c.run dts)
      ∧ c.current_frame ≤ (c.run dts).current_frame := by
  intro dts
  induction dts with
  | nil =>
    intro c T hinv
    simpa [AnimationController.run] using hinv
  | cons dt rest ih =>
    intro c T hinv
    have h1 := oneShotInv_update name anim hname hos hd c T dt hinv
    have h2 := ih (c.update dt) (T + dt) h1.1
    constructor
    · have : T + (dt :: rest).sum = T + dt + rest.sum := by
        simp [List.sum_cons]; ring
      rw [this]
      simpa only [AnimationController.run, List.foldl_cons] using h2.1
    · refine le_trans h1.2 ?_
      simpa only [AnimationController.run, List.foldl_cons] using h2.2

/-- Under `oneShotInv` the frame cursor never passes the last frame. -/
theorem oneShotInv_frame_le (name : String) (anim : AnimationData)
    (c : AnimationController) (S : ℚ) (hN : 1 ≤ anim.frames.length)
    (hinv : oneShotInv name anim S c) :
    c.current_frame ≤ anim.frames.length - 1 := by
  obtain ⟨-, -, hnf, hf⟩ := hinv
  cases hfin : c.finished with
  | true => exact le_of_eq (hf hfin).1
  | false =>
    have := (hnf hfin).1
    omega

/-- Under `oneShotInv`, once the cumulative time reaches
`(N - 1) * frame_duration` the cursor sits on the last frame. -/
theorem oneShotInv_frame_eq (name : String) (anim : AnimationData)
    (c : AnimationController) (S : ℚ) (hd : 0 < anim.frame_duration)
    (hN : 1 ≤ anim.frames.length)
    (hinv : oneShotInv name anim S c)
    (hS : ((anim.frames.length - 1 : ℕ) : ℚ) * anim.frame_duration ≤ S) :
    c.current_frame = anim.frames.length - 1 := by
  have hle := oneShotInv_frame_le name anim c S hN hinv
  obtain ⟨-, -, hnf, hf⟩ := hinv
  cases hfin : c.finished with
  | true => exact (hf hfin).1
  | false =>
    obtain ⟨hfr, hel, hlt⟩ := hnf hfin
    have hup : S < ((c.current_frame : ℚ) + 1) * anim.frame_duration := by
      rw [hel] at hlt
      rw [add_mul, one_mul]
      linarith
    have hql : ((anim.frames.length - 1 : ℕ) : ℚ)
        < (c.current_frame : ℚ) + 1 :=
      lt_of_mul_lt_mul_right (lt_of_le_of_lt hS hup) (le_of_lt hd)
    have hql2 : (anim.frames.length - 1 : ℕ) < c.current_frame + 1 := by
      exact_mod_cast hql
    omega

/-- Under `oneShotInv`, once the cumulative time reaches
`N * frame_duration` the animation is finished. -/
theorem oneShotInv_finished (name : String) (anim : AnimationData)
    (c : AnimationController) (S : ℚ) (hd : 0 < anim.frame_duration)
    (hN : 1 ≤ anim.frames.length)
    (hinv : oneShotInv name anim S c)
    (hS : (anim.frames.length : ℚ) * anim.frame_duration ≤ S) :
    c.finished = true := by
  have hle := oneShotInv_frame_le name anim c S hN hinv
  obtain ⟨-, -, hnf, -⟩ := hinv
  cases hfin : c.finished with
  | true => rfl
  | false =>
    exfalso
    obtain ⟨hfr, hel, hlt⟩ := hnf hfin
    have hcast : (c.current_frame : ℚ) ≤ (anim.frames.length : ℚ) - 1 := by
      have : ((c.current_frame : ℕ) : ℚ) ≤ ((anim.frames.length - 1 : ℕ) : ℚ) := by
        exact_mod_cast hle
      rw [Nat.cast_sub hN] at this
      simpa using this
    have hmul : (c.current_frame : ℚ) * anim.frame_duration
        ≤ ((anim.frames.length : ℚ) - 1) * anim.frame_duration :=
      mul_le_mul_of_nonneg_right hcast (le_of_lt hd)
    rw [hel] at hlt
    nlinarith

/-- **C2 (amended).** For a one-shot animation of `N ≥ 1` frames with
per-frame duration `D > 0`, after `play` any sequence of `update` calls
with cumulative `dt ≥ (N-1)*D` leaves `current_frame = N-1`, and any
further sequence of `update` calls leaves `current_frame` unchanged at
`N-1`; `is_finished()` is true once the cumulative `dt` reaches `N*D`
(at exactly `(N-1)*D` the last frame is already shown but `finished` is
not yet set — see the counterexample). -/
theorem one_shot_cumulative (name : String) (anim : AnimationData)
    (dts more : List ℚ)
    (hname : ¬ name = "") (hos : anim.one_shot = true)
    (hd : 0 < anim.frame_duration) (hN : 1 ≤ anim.frames.length)
    (hsum : ((anim.frames.length - 1 : ℕ) : ℚ) * anim.frame_duration ≤ dts.sum) :
    ((((AnimationController.init [(name, anim)]).play name).run dts).current_frame
        = anim.frames.length - 1)
    ∧ (((((AnimationController.init [(name, anim)]).play name).run dts).run
          more).current_frame = anim.frames.length - 1)
    ∧ ((anim.frames.length : ℚ) * anim.frame_duration ≤ dts.sum →
        (((AnimationController.init [(name, anim)]).play name).run
          dts).is_finished = true) := by
  have hplay : (AnimationController.init [(name, anim)]).play name
      = { animations := [(name, anim)], current_animation := name,
          current_frame := 0, elapsed := 0, finished := false } := by
    simp only [AnimationController.play, AnimationController.init]
    rw [if_neg hname]
  have hinv0 : oneShotInv name anim 0
      { animations := [(name, anim)], current_animation := name,
        current_frame := 0, elapsed := 0, finished := false } := by
    refine ⟨rfl, rfl, ?_, ?_⟩
    · intro _
      refine ⟨by simpa using hN, by norm_num, hd⟩
    · intro h
      exact absurd h (by simp)
  rw [hplay]
  obtain ⟨hinv1, -⟩ := oneShotInv_run name anim hname hos hd dts _ 0 hinv0
  rw [zero_add] at hinv1
  have hframe1 := oneShotInv_frame_eq name anim _ dts.sum hd hN hinv1 hsum
  obtain ⟨hinv2, hmono2⟩ := oneShotInv_run name anim hname hos hd more _ _ hinv1
  have hle2 := oneShotInv_frame_le name anim _ _ hN hinv2
  refine ⟨hframe1, by omega, ?_⟩
  intro hsumN
  exact oneShotInv_finished name anim _ dts.sum hd hN hinv1 hsumN

theorem one_shot_cumulative_witness :
    ((((AnimationController.init
        [("DEATH", AnimationData.mk [⟨0, 0, 32, 32⟩, ⟨32, 0, 32, 32⟩, ⟨64, 0, 32, 32⟩]
            100 false true [])]).play "DEATH").run [500]).current_frame = 2)
    ∧ (((((AnimationController.init
        [("DEATH", AnimationData.mk [⟨0, 0, 32, 32⟩, ⟨32, 0, 32, 32⟩, ⟨64, 0, 32, 32⟩]
            100 false true [])]).play "DEATH").run [500]).run [1000]).current_frame = 2)
    ∧ ((((AnimationController.init
        [("DEATH", AnimationData.mk [⟨0, 0, 32, 32⟩, ⟨32, 0, 32, 32⟩, ⟨64, 0, 32, 32⟩]
            100 false true [])]).play "DEATH").run [500]).is_finished = true) := by
  have h := one_shot_cumulative "DEATH"
    (AnimationData.mk [⟨0, 0, 32, 32⟩, ⟨32, 0, 32, 32⟩, ⟨64, 0, 32, 32⟩] 100 false true [])
    [500] [1000] (by decide) rfl (by norm_num) (by decide)
    (by norm_num [List.sum_cons, List.sum_nil])
  exact ⟨h.1, h.2.1, h.2.2 (by norm_num [List.sum_cons, List.sum_nil])⟩

/-- **C2 counterexample.** A 2-frame one-shot animation with
`D = 100`: a single `update(100)` has cumulative `dt = (N-1)*D`, leaves
`current_frame = N-1 = 1` as the claim says, but `is_finished()` is
still false (`finished` is only set on the *next* whole-frame
consumption), contradicting the claimed `is_finished() = true`. -/
theorem one_shot_exact_counterexample :
    ((((AnimationController.init
        [("DEATH", AnimationData.mk [⟨0, 0, 32, 32⟩, ⟨32, 0, 32, 32⟩] 100 false true
            [])]).play "DEATH").update 100).current_frame = 1)
    ∧ ((((AnimationController.init
        [("DEATH", AnimationData.mk [⟨0, 0, 32, 32⟩, ⟨32, 0, 32, 32⟩] 100 false true
            [])]).play "DEATH").update 100).is_finished = false) := by
  have hplay : (AnimationController.init
      [("DEATH", AnimationData.mk [⟨0, 0, 32, 32⟩, ⟨32, 0, 32, 32⟩] 100 false true [])]).play
      "DEATH"
      = { animations := [("DEATH", AnimationData.mk
            [⟨0, 0, 32, 32⟩, ⟨32, 0, 32, 32⟩] 100 false true [])],
          current_animation := "DEATH", current_frame := 0, elapsed := 0,
          finished := false } := by
    simp only [AnimationController.play, AnimationController.init]
    rw [if_neg (by decide)]
  rw [hplay]
  have hfuel : updateFuel ((0 : ℚ) + 100) 100 = 2 := by
    norm_num [updateFuel]
  simp only [AnimationController.update, List.lookup, beq_self_eq_true,
    Bool.false_eq_true, if_false, hfuel]
  norm_num [animAdvance, AnimationController.is_finished]
  rw [if_neg (by decide)]
  exact ⟨rfl, rfl⟩

theorem loop_never_finished_witness :
    ((((AnimationController.init
        [("WALK", AnimationData.mk [⟨0, 0, 32, 32⟩, ⟨32, 0, 32, 32⟩] 100 true false
            [])]).play "WALK").run [5000, 250]).is_finished) = false :=
  loop_never_finished "WALK"
    (AnimationData.mk [⟨0, 0, 32, 32⟩, ⟨32, 0, 32, 32⟩] 100 true false [])
    [5000, 250] (by decide) rfl rfl
